import Mathlib

/-!
Verification development for the CMLink tournament monitor
(`CMLink/TournamentMonitor.py` and its cog wiring in `CMLink/CMLink.py`).

The Python code is shallowly embedded: pure fragments become Lean
functions, stateful methods become explicit state-passing functions, the
Discord / HTTP environment is passed in as oracles (a supply of
channel-creation results, per-attempt HTTP responses, token-exchange
results), and Python exceptions become `Except` / explicit outcome
markers.  Integers (Discord snowflakes, unix timestamps) are modelled as
`Int`; Python dicts that are used with string/tuple keys are modelled as
association lists with dict semantics (`alookup` / `ainsert` / `aremove`).
-/

namespace CMLink

/-! ## Generic dict helpers (Python `dict` on hashable keys) -/

/-- Lookup in an association list: `d.get(k)`. -/
def alookup {α β : Type} [DecidableEq α] : List (α × β) → α → Option β
  | [], _ => none
  | p :: ps, k => if p.1 = k then some p.2 else alookup ps k

/-- Removal: `d.pop(k, None)` (removes every binding of `k`; dict keys are
unique so this matches Python's single-key pop). -/
def aremove {α β : Type} [DecidableEq α] : List (α × β) → α → List (α × β)
  | [], _ => []
  | p :: ps, k => if p.1 = k then aremove ps k else p :: aremove ps k

/-- Update: `d[k] = v` (replace in place keeping position, else append,
matching Python dict insertion-order semantics). -/
def ainsert {α β : Type} [DecidableEq α] : List (α × β) → α → β → List (α × β)
  | [], k, v => [(k, v)]
  | p :: ps, k, v => if p.1 = k then (k, v) :: ps else p :: ainsert ps k v

/-- Python `needle in hay` for strings (substring test). -/
def containsSubstr (needle hay : String) : Bool :=
  (hay.splitOn needle).length > 1

/-- Python `hay.endswith(suffix)`. -/
def strEndsWith (s suffix : String) : Bool :=
  suffix.data.isSuffixOf s.data

/-- Remove the first occurrence of an element (deleting one Discord
channel with a given id from a guild's channel list). -/
def eraseFirst : List Int → Int → List Int
  | [], _ => []
  | x :: xs, a => if x = a then xs else x :: eraseFirst xs a

/-! ## `Storage` — the JSON link store (`users.json`)

`Storage._read` opens and parses the backing file; any exception
(missing file, unparseable JSON) is caught and the empty structure
`{"links": {}}` is returned.  The backing file is modelled by
`FileState`; the fallible open-and-parse step is `Storage.readRaw`, and
`Storage._read` is total by construction because it catches every
error. -/

inductive FileState
  | missing
  | corrupt
  | ok (links : List (String × String))
deriving DecidableEq, Repr

namespace Storage

/-- The raw `open` + `json.load` step, which can raise. -/
def readRaw : FileState → Except String (List (String × String))
  | .missing => .error "FileNotFoundError"
  | .corrupt => .error "JSONDecodeError"
  | .ok links => .ok links

/-- Model of `Storage._read`: every exception from `readRaw` is caught and the
empty structure is returned. -/
def _read (f : FileState) : List (String × String) :=
  match readRaw f with
  | .ok links => links
  | .error _ => []

/-- Model of `Storage.get_discord_id`: `data.get("links", {}).get(str(cm_user_id))`
followed by `int(value)` with a catch-all returning `None`. -/
def get_discord_id (f : FileState) (cm_user_id : String) : Option Int :=
  match alookup (_read f) cm_user_id with
  | none => none
  | some v => v.toInt?

/-- Model of `Storage.all_links`: `data.get("links", {})`. -/
def all_links (f : FileState) : List (String × String) :=
  _read f

end Storage

/-! ## Discord-side data model

A guild is its id plus the set of current members.  The per-guild Discord
world tracked by the model is the set of existing voice-channel ids and
the voice presence map (member id → channel id the member is connected
to).  Channel creation is driven by an oracle `env : Nat → Option Int`
giving the result of the n-th `create_voice_channel` call of an attempt
(`some id` = created channel id, `none` = the call raised). -/

structure Guild where
  id : Int
  members : List Int
deriving DecidableEq, Repr

/-- Discord `guild.get_member(did)`: the member if present in the guild. -/
def Guild.get_member (g : Guild) (did : Int) : Option Int :=
  if did ∈ g.members then some did else none

structure GWorld where
  channels : List Int
  voice : List (Int × Int)
deriving DecidableEq, Repr

/-- Discord `member.voice.channel` (as an id), `none` when not connected. -/
def memberChannel (w : GWorld) (mid : Int) : Option Int :=
  alookup w.voice mid

/-- Discord `member.move_to(target)` for a member currently in voice. -/
def moveMember (w : GWorld) (mid target : Int) : GWorld :=
  { w with voice := w.voice.map (fun p => if p.1 = mid then (mid, target) else p) }

/-- Discord `ch.members` for the channel with id `cid`. -/
def channelMembers (w : GWorld) (cid : Int) : List Int :=
  (w.voice.filter (fun p => p.2 = cid)).map (fun p => p.1)

/-- Discord `ch.delete()`: the channel disappears and so does any voice presence
in it. -/
def deleteChannelId (w : GWorld) (cid : Int) : GWorld :=
  { channels := eraseFirst w.channels cid
    voice := w.voice.filter (fun p => p.2 ≠ cid) }

/-! ## Match snapshots and lineup resolution (`_on_state_change`) -/

structure LineupMember where
  userId : Option String
deriving DecidableEq, Repr

structure Lineup where
  number : Int
  members : List LineupMember
deriving DecidableEq, Repr

structure MatchSnap where
  id : String
  shortId : String
  lineups : List Lineup
deriving DecidableEq, Repr

/-- Resolution of one lineup member to a Discord member
(`_on_state_change` lines 223-229): `member.get("userId")` must be a
truthy string, `storage.get_discord_id` must return a truthy (non-zero)
id, and `guild.get_member` must find the member. -/
def resolveMember (storage : FileState) (g : Guild) (mem : LineupMember) : Option Int :=
  match mem.userId with
  | none => none
  | some uid =>
    if uid = "" then none
    else
      match Storage.get_discord_id storage uid with
      | none => none
      | some did => if did = 0 then none else Guild.get_member g did

/-- The `teams` dict built by `_on_state_change`:
`teams[int(lineup["number"])] = [resolved members]`, with Python dict
insert-or-replace semantics across lineups. -/
def resolveTeams (storage : FileState) (g : Guild) (m : MatchSnap) :
    List (Int × List Int) :=
  m.lineups.foldl
    (fun teams lu =>
      ainsert teams lu.number (lu.members.filterMap (resolveMember storage g)))
    []

/-! ## `_create_and_move` -/

abbrev AV := List ((Int × String) × List Int)
abbrev AM := List (String × List Int)

/-- One created voice channel: its id, its name, and the members granted
connect/view/speak overwrites at creation time (the `@everyone` role is
denied in `overwrites_base`). -/
structure ChannelRec where
  cid : Int
  cname : String
  granted : List Int
deriving DecidableEq, Repr

inductive CreateOutcome
  | alreadyActive
  | ok (recs : List ChannelRec)
  | rolledBack (recs : List ChannelRec)
deriving DecidableEq, Repr

/-- Model of `max_size` (`_create_and_move` lines 428-429): maximum resolved team
size over non-empty teams, `0` when every team is empty. -/
def maxTeamSize (teams : List (Int × List Int)) : Nat :=
  ((teams.filter (fun p => ¬p.2.isEmpty)).map (fun p => p.2.length)).foldl max 0

/-- The per-team creation loop (`_create_and_move` lines 450-459): skip
empty teams, create one channel per non-empty team, stop at the first
raising creation call.  Returns the channels created during the attempt
(in creation order) and whether the loop completed. -/
def createTeamChannels (env : Nat → Option Int) (sid : String) :
    Nat → List (Int × List Int) → List ChannelRec × Bool
  | _, [] => ([], true)
  | idx, p :: rest =>
    if p.2.isEmpty then createTeamChannels env sid idx rest
    else
      match env idx with
      | none => ([], false)
      | some cid =>
        (⟨cid, "match-" ++ sid ++ "-team" ++ toString (p.1 + 1), p.2⟩ ::
            (createTeamChannels env sid (idx + 1) rest).1,
         (createTeamChannels env sid (idx + 1) rest).2)

/-- The creation phase of `_create_and_move` (lines 437-459): a single
shared channel in the 1v1 / non-team case, else one channel per
non-empty team. -/
def createPhase (env : Nat → Option Int) (m : MatchSnap)
    (teams : List (Int × List Int)) : List ChannelRec × Bool :=
  if maxTeamSize teams ≤ 1 then
    match env 0 with
    | none => ([], false)
    | some cid =>
      ([⟨cid, "match-" ++ m.shortId, (teams.map (fun p => p.2)).flatten⟩], true)
  else
    createTeamChannels env m.shortId 0 teams

/-- The move phase (`_create_and_move` lines 461-472): members of each
team that currently sit in the lobby voice channel are moved to their
channel (single channel when only one was created, else the channel
whose name ends in `team<n+1>`); all per-member errors are swallowed. -/
def doMoves (lobby : Option Int) (teams : List (Int × List Int))
    (recs : List ChannelRec) (w : GWorld) : GWorld :=
  match lobby with
  | none => w
  | some l =>
    teams.foldl
      (fun (w : GWorld) (p : Int × List Int) =>
        let target : Option ChannelRec :=
          if recs.length = 1 then recs.head?
          else recs.find? (fun r => strEndsWith r.cname ("team" ++ toString (p.1 + 1)))
        match target with
        | none => w
        | some tc =>
          p.2.foldl
            (fun w mid =>
              if memberChannel w mid = some l then moveMember w mid tc.cid else w)
            w)
      w

/-- Model of `_create_and_move` (lines 414-490).  Results: the updated guild
world, the in-memory `_active_voice` map, the guild's persisted
`active_matches` record, and the outcome.  On a creation failure the
`except` block deletes every channel created during the attempt
(best-effort rollback) and the exception is not re-raised; the
bookkeeping (lines 474-482) is only reached when every creation
succeeded, so only the creation calls can fail in this embedding. -/
def createAndMove (env : Nat → Option Int) (g : Guild) (m : MatchSnap)
    (teams : List (Int × List Int)) (lobby : Option Int)
    (w : GWorld) (av : AV) (am : AM) : GWorld × AV × AM × CreateOutcome :=
  if (alookup av (g.id, m.id)).isSome then (w, av, am, .alreadyActive)
  else
    let pr := createPhase env m teams
    let recs := pr.1
    let w1 : GWorld := { w with channels := w.channels ++ recs.map (fun r => r.cid) }
    if pr.2 then
      let ids := recs.map (fun r => r.cid)
      (doMoves lobby teams recs w1,
       ainsert av (g.id, m.id) ids,
       ainsert am m.id ids,
       .ok recs)
    else
      (recs.foldl (fun w r => deleteChannelId w r.cid) w1, av, am, .rolledBack recs)

/-! ## `_cleanup_match_voice`, `_cleanup_all`, `start`, `stop` -/

/-- Teardown of one recorded channel (`_cleanup_match_voice` lines
510-523): move every occupant back to the lobby (when configured), then
delete the channel; every error is swallowed. -/
def deleteWithMoves (lobby : Option Int) (w : GWorld) (cid : Int) : GWorld :=
  let w1 :=
    match lobby with
    | some l => (channelMembers w cid).foldl (fun w mid => moveMember w mid l) w
    | none => w
  deleteChannelId w1 cid

/-- Model of `_cleanup_match_voice` (lines 492-523): collect channel ids from the
in-memory entry (popping it; popping an absent key is a no-op, so the
removal is written unconditionally) and from the persisted entry
(dropping the match id from the record), then tear down each channel
that still exists, skipping ids that no longer resolve to a channel. -/
def cleanupMatchVoice (g : Guild) (matchId : String) (lobby : Option Int)
    (w : GWorld) (av : AV) (am : AM) : GWorld × AV × AM :=
  let memIds : List Int := (alookup av (g.id, matchId)).getD []
  let av1 := aremove av (g.id, matchId)
  let cids : List Int :=
    match alookup am matchId with
    | some entry => memIds ++ entry.filter (fun c => c ∉ memIds)
    | none => memIds
  let am1 : AM :=
    match alookup am matchId with
    | some _ => aremove am matchId
    | none => am
  let w1 := cids.foldl
    (fun w c => if c ∈ w.channels then deleteWithMoves lobby w c else w) w
  (w1, av1, am1)

/-- Per-guild persisted configuration and world, as used by
`_cleanup_all`. -/
structure GuildState where
  guild : Guild
  lobby : Option Int
  world : GWorld
  activeMatches : AM
deriving DecidableEq, Repr

/-- One guild's pass of `_cleanup_all` (lines 527-535): iterate over the
keys of the persisted `active_matches` record and run the terminal-state
teardown for each. -/
def cleanupAllGuild (gs : GuildState) (av : AV) : GuildState × AV :=
  let r := (gs.activeMatches.map (fun p => p.1)).foldl
    (fun acc mid =>
      let s := cleanupMatchVoice gs.guild mid gs.lobby acc.1 acc.2.1 acc.2.2
      (s.1, s.2.1, s.2.2))
    (gs.world, av, gs.activeMatches)
  ({ gs with world := r.1, activeMatches := r.2.2 }, r.2.1)

/-- Process-level state of the monitor: all guilds, the global in-memory
`_active_voice` map, and the `_task` / `session` / `_running` fields. -/
structure ProcState where
  guilds : List GuildState
  activeVoice : AV
  taskActive : Bool
  sessionOpen : Bool
  running : Bool
deriving DecidableEq, Repr

/-- Model of `_cleanup_all` over every guild of the bot. -/
def cleanupAllProc (st : ProcState) : ProcState :=
  let r := st.guilds.foldl
    (fun (acc : List GuildState × AV) gs =>
      let s := cleanupAllGuild gs acc.2
      (acc.1 ++ [s.1], s.2))
    ([], st.activeVoice)
  { st with guilds := r.1, activeVoice := r.2 }

/-- Model of `TournamentMonitor.start` (lines 125-130): if a task is already
running do nothing; otherwise open the HTTP session, set the running
flag and spawn the poll loop.  No other state is read or written. -/
def MonitorStart (st : ProcState) : ProcState :=
  if st.taskActive then st
  else { st with sessionOpen := true, running := true, taskActive := true }

/-- Model of `TournamentMonitor.stop` (lines 132-143): clear the running flag,
await/cancel the task, close the session, then run `_cleanup_all`. -/
def MonitorStop (st : ProcState) : ProcState :=
  cleanupAllProc { st with running := false, taskActive := false, sessionOpen := false }

/-! ## `_ensure_access_token` — token manager

Config fields relevant to the token lifecycle.  Python truthiness:
`API_Access_Token` is falsy when the empty string (the value also used
to clear the cache), `API_Access_Expires_At` is falsy when `0`. -/

structure TokenState where
  cachedToken : String
  expiresAt : Int
  refreshKey : String
  tokenUrl : String
deriving DecidableEq, Repr

/-- Result of one POST to the token-exchange endpoint: `fail` is any
non-200 status or transport exception (nothing is cached), `ok` carries
the response's `value` and the parsed `expiresAt` (already `none` when
the field is absent or unparseable, in which case the code falls back to
`now + 1100`). -/
inductive ExchangeResult
  | fail
  | ok (value : Option String) (expAt : Option Int)
deriving DecidableEq, Repr

/-- Model of `_ensure_access_token` (lines 873-930), driven by an oracle `ex`
giving the result of the n-th exchange call of the process.  Returns the
token handed to the caller, the updated config state, and the updated
count of exchange calls performed. -/
def ensureAccessToken (ex : Nat → ExchangeResult) (cnt : Nat) (now : Int)
    (ts : TokenState) : Option String × TokenState × Nat :=
  if ts.cachedToken ≠ "" ∧ ts.expiresAt ≠ 0 ∧ ts.expiresAt - now > 60 then
    (some ts.cachedToken, ts, cnt)
  else if ts.refreshKey = "" then (none, ts, cnt)
  else if ts.tokenUrl = "" then (none, ts, cnt)
  else
    match ex cnt with
    | .fail => (none, ts, cnt + 1)
    | .ok value expAt =>
      (value,
       { ts with
           cachedToken := value.getD ""
           expiresAt := match expAt with | some t => t | none => now + 1100 },
       cnt + 1)

/-! ## `_graphql_raw` — API client with single auth retry -/

structure GqlError where
  code : Option String
  message : String
deriving DecidableEq, Repr

/-- Parsed shape of one HTTP response body of the GraphQL endpoint. -/
inductive Body
  | nonJson
  | jsonOther
  | jsonObj (errors : List GqlError)
deriving DecidableEq, Repr

inductive HttpResult
  | fail
  | resp (status : Int) (body : Body)
deriving DecidableEq, Repr

/-- Model of `_is_auth_error` (lines 774-782): only dict bodies are inspected;
an error counts as an auth error when its `extensions.code` is
`AUTH_NOT_AUTHENTICATED` or its message contains `not authorized` or
`auth` case-insensitively. -/
def isAuthError : Body → Bool
  | .jsonObj errors =>
    errors.any (fun e =>
      decide (e.code = some "AUTH_NOT_AUTHENTICATED") ||
      containsSubstr "not authorized" e.message.toLower ||
      containsSubstr "auth" e.message.toLower)
  | _ => false

/-- Observable outcome of one `_graphql_raw` call: the returned
`(js, status)` pair, the number of POSTs to the API URL, the number of
token-exchange calls, the final config token state, and the fresh token
used for the retry when one happened. -/
structure GqlOutcome where
  body : Option Body
  status : Option Int
  requests : Nat
  exchanges : Nat
  tokenState : TokenState
  retryToken : Option String
deriving DecidableEq, Repr

/-- Model of `_graphql_raw` (lines 659-813), with `http n` the result of the
n-th POST of this call.  Control flow: ensure a token (abort returning
`(None, None)` without any request if unavailable); perform the primary
request; on transport failure or non-JSON body return as the code does;
on HTTP 200 whose body classifies as an auth error, clear the cached
token (`API_Access_Token = ""`, `API_Access_Expires_At = 0`), re-ensure,
and — when that yields a token — retry exactly once, returning the
retried call's outcome whatever it is. -/
def graphqlRaw (ex : Nat → ExchangeResult) (http : Nat → HttpResult)
    (now : Int) (ts : TokenState) : GqlOutcome :=
  match ensureAccessToken ex 0 now ts with
  | (none, ts1, ec1) => ⟨none, none, 0, ec1, ts1, none⟩
  | (some _, ts1, ec1) =>
    match http 0 with
    | .fail => ⟨none, none, 1, ec1, ts1, none⟩
    | .resp st b =>
      match b with
      | .nonJson => ⟨none, some st, 1, ec1, ts1, none⟩
      | _ =>
        if st = 200 ∧ isAuthError b then
          match ensureAccessToken ex ec1 now { ts1 with cachedToken := "", expiresAt := 0 } with
          | (none, ts3, ec2) => ⟨some b, some st, 1, ec2, ts3, none⟩
          | (some newTok, ts3, ec2) =>
            match http 1 with
            | .fail => ⟨none, none, 2, ec2, ts3, some newTok⟩
            | .resp st2 b2 =>
              match b2 with
              | .nonJson => ⟨none, some st2, 2, ec2, ts3, some newTok⟩
              | _ => ⟨some b2, some st2, 2, ec2, ts3, some newTok⟩
        else ⟨some b, some st, 1, ec1, ts1, none⟩

/-! ## Poll-loop control flow (`_loop`, `_tick_all_guilds`,
`_process_guild`)

The embedding keeps the exception-propagation structure of the sweep:
per-tournament snapshot fetching and per-match transition handling are
fallible (`Except String`), the tournament-level announcement call is
wrapped in its own `try/except`, the per-guild loop body is wrapped in a
`try/except continue`, and the loop body swallows everything.  Pure
bookkeeping of the state cache is irrelevant to the isolation claim and
is elided. -/

structure TData where
  tname : Option String
  tmatches : List (String × String)
deriving DecidableEq, Repr

/-- The per-match transition loop of `_process_guild` (lines 190-196):
`_on_state_change` is awaited with no surrounding `try`, so its
exceptions propagate. -/
def processMatches (handleM : String → String → Except String Unit)
    (prev : List (String × String)) : List (String × String) → Except String Unit
  | [] => .ok ()
  | (mid, st) :: rest => do
    if alookup prev mid ≠ some st then handleM mid st
    processMatches handleM prev rest

/-- Model of `_process_guild` (lines 166-198): iterate the guild's configured
tournaments; `_fetch_tournament_matches` is awaited with no `try`
(line 172); a falsy snapshot skips the tournament; the tournament-level
state-change handler is wrapped in `try/except` (lines 183-186); the
match loop is unprotected.  Returns the tournaments that were fully
processed, or the first escaping exception. -/
def processGuild (fetch : String → Except String (Option TData))
    (handleT : String → Except String Unit)
    (handleM : String → String → String → Except String Unit)
    (cache : List (String × List (String × String))) :
    List String → Except String (List String)
  | [] => .ok []
  | t :: rest => do
    match ← fetch t with
    | none => processGuild fetch handleT handleM cache rest
    | some td =>
      match handleT t with
      | .ok _ => pure ()
      | .error _ => pure ()
      processMatches (handleM t) ((alookup cache t).getD []) td.tmatches
      let r ← processGuild fetch handleT handleM cache rest
      pure (t :: r)

/-- Model of `_tick_all_guilds` (lines 155-164): skip everything when the API URL
or refresh token is unconfigured; otherwise run `_process_guild` for
every guild, catching any exception per guild and continuing with the
next one.  The result records, per guild, the tournaments processed
(`none` when that guild's processing raised). -/
def tickAllGuilds (cfgOk : Bool) (guilds : List Int)
    (perGuild : Int → Except String (List String)) :
    List (Int × Option (List String)) :=
  if cfgOk then
    guilds.map (fun g =>
      match perGuild g with
      | .ok r => (g, some r)
      | .error _ => (g, none))
  else []

/-- Model of `_loop` (lines 145-153): each scheduled sweep runs inside a
catch-all `try/except`, so every sweep completes the iteration and the
loop proceeds to the next one regardless of failures. -/
def pollLoop (sweeps : List (Except String Unit)) : List Bool :=
  sweeps.map (fun s =>
    match s with
    | .ok _ => true
    | .error _ => true)

/-! ## Attribute table of `TournamentMonitor` (for the `_graphql` call)

Python resolves `self._graphql` by looking the name up among the
instance attributes set in `__init__` and the methods defined on the
class, before any call is made.  Both lists are transcribed from the
source. -/

def tournamentMonitorInstanceAttrs : List String :=
  ["bot", "config", "session", "_task", "_running", "_state_cache",
   "_active_voice", "storage", "_last_js_by_op"]

def tournamentMonitorMethods : List String :=
  ["__init__", "start", "stop", "_loop", "_tick_all_guilds", "_process_guild",
   "_on_state_change", "_on_tournament_state_change", "_format_match_result",
   "_create_and_move", "_cleanup_match_voice", "_cleanup_all",
   "_fetch_tournament_matches", "get_tournament_participants", "_graphql_raw",
   "_push_loki", "_ensure_access_token"]

/-- Python `getattr(self, name)`: succeeds exactly when the name is an instance
attribute or a class method; otherwise raises `AttributeError`. -/
def monitorGetAttr (attr : String) : Except String Unit :=
  if attr ∈ tournamentMonitorInstanceAttrs ∨ attr ∈ tournamentMonitorMethods then
    .ok ()
  else
    .error ("AttributeError: " ++ attr)

/-- Model of `_fetch_tournament_matches` (lines 537-603) up to its first
side-effecting step: the query text and variables are built locally,
then `self._graphql(...)` is evaluated — Python resolves the attribute
`_graphql` before issuing any request.  The result pairs the outcome
with the number of network requests issued; the success branch is
unreachable because the attribute does not exist. -/
def fetchTournamentMatches (_apiUrl _tournamentId : String) :
    Except String (Option TData) × Nat :=
  match monitorGetAttr "_graphql" with
  | .error e => (.error e, 0)
  | .ok _ => (.ok none, 1)

/-- Model of `get_tournament_participants` (lines 605-657): returns `[]` without
any lookup when the API URL is unconfigured (falsy); otherwise builds
the query and evaluates `self._graphql(...)`, resolving the attribute
before any request. -/
def getTournamentParticipants (apiUrl _tournamentId : String) :
    Except String (List (String × Option String)) × Nat :=
  if apiUrl = "" then (.ok [], 0)
  else
    match monitorGetAttr "_graphql" with
    | .error e => (.error e, 0)
    | .ok _ => (.ok [], 1)

/-! ## Concrete scenarios used by individual claims -/

/-- A restarted process: guild 1 has lobby channel 10, a leftover match
channel 100 (with member 5 still sitting in it) recorded in the
persisted `active_matches` under match id `M`, and a fresh (empty)
in-memory `_active_voice` map; no poll task is running yet. -/
def restartProc : ProcState :=
  { guilds := [{ guild := { id := 1, members := [5, 6] }
                 lobby := some 10
                 world := { channels := [10, 100], voice := [(5, 100)] }
                 activeMatches := [("M", [100])] }]
    activeVoice := []
    taskActive := false
    sessionOpen := false
    running := false }

/-- A snapshot-fetch oracle for which the first tournament's fetch
raises and the second tournament's fetch returns a snapshot. -/
def sweepFetch : String → Except String (Option TData) :=
  fun t =>
    if t = "t1" then .error "boom"
    else .ok (some { tname := some "T2", tmatches := [("m1", "RUNNING")] })

/-- A fully configured token state with a cached token valid far beyond
the 60-second margin at time 0. -/
def demoTokenState : TokenState :=
  { cachedToken := "tok", expiresAt := 1000, refreshKey := "rk",
    tokenUrl := "https://token" }

/-- A GraphQL response body carrying an auth-classified error. -/
def demoAuthBody : Body :=
  .jsonObj [{ code := some "AUTH_NOT_AUTHENTICATED", message := "not authorized" }]

/-- An HTTP oracle: the primary request gets the auth error, the retry
succeeds. -/
def demoHttp : Nat → HttpResult :=
  fun n => if n = 0 then .resp 200 demoAuthBody else .resp 200 (.jsonObj [])

/-- A token-exchange oracle that always succeeds with a fresh token. -/
def demoExchange : Nat → ExchangeResult :=
  fun _ => .ok (some "tok2") (some 5000)

end CMLink

namespace CMLink

/-! ## Theorems -/

/-! ### Dictionary lemmas -/

theorem alookup_aremove_self {α β : Type} [DecidableEq α] (l : List (α × β)) (k : α) :
    alookup (aremove l k) k = none := by
  induction l with
  | nil => rfl
  | cons p ps ih => by_cases h : p.1 = k <;> simp [aremove, h, alookup, ih]

theorem aremove_of_alookup_none {α β : Type} [DecidableEq α] {l : List (α × β)} {k : α}
    (h : alookup l k = none) : aremove l k = l := by
  induction l with
  | nil => rfl
  | cons p ps ih =>
    by_cases hp : p.1 = k
    · simp [alookup, hp] at h
    · simp only [alookup, if_neg hp] at h
      simp [aremove, hp, ih h]

theorem alookup_ainsert_self {α β : Type} [DecidableEq α] (l : List (α × β)) (k : α) (v : β) :
    alookup (ainsert l k v) k = some v := by
  induction l with
  | nil => simp [ainsert, alookup]
  | cons p ps ih => by_cases hp : p.1 = k <;> simp [ainsert, hp, alookup, ih]

theorem ainsert_mem {α β : Type} [DecidableEq α] {l : List (α × β)} {k : α} {v : β}
    {q : α × β} (h : q ∈ ainsert l k v) : q ∈ l ∨ q = (k, v) := by
  induction l with
  | nil =>
    simp [ainsert] at h
    exact Or.inr h
  | cons p ps ih =>
    rw [ainsert] at h
    by_cases hp : p.1 = k
    · rw [if_pos hp] at h
      rcases List.mem_cons.mp h with h | h
      · exact Or.inr h
      · exact Or.inl (List.mem_cons_of_mem _ h)
    · rw [if_neg hp] at h
      rcases List.mem_cons.mp h with h | h
      · exact Or.inl (h ▸ List.mem_cons_self p ps)
      · rcases ih h with h | h
        · exact Or.inl (List.mem_cons_of_mem _ h)
        · exact Or.inr h

/-! ### Teardown lemmas -/

theorem cleanup_av_component (g : Guild) (matchId : String) (lobby : Option Int)
    (w : GWorld) (av : AV) (am : AM) :
    (cleanupMatchVoice g matchId lobby w av am).2.1 = aremove av (g.id, matchId) := by
  simp [cleanupMatchVoice]

theorem cleanup_removes_bookkeeping (g : Guild) (matchId : String) (lobby : Option Int)
    (w : GWorld) (av : AV) (am : AM) :
    alookup (cleanupMatchVoice g matchId lobby w av am).2.1 (g.id, matchId) = none ∧
    alookup (cleanupMatchVoice g matchId lobby w av am).2.2 matchId = none := by
  constructor
  · rw [cleanup_av_component]
    exact alookup_aremove_self av (g.id, matchId)
  · cases h : alookup am matchId <;>
      simp [cleanupMatchVoice, h, alookup_aremove_self]

theorem cleanup_noop_of_absent (g : Guild) (matchId : String) (lobby : Option Int)
    (w : GWorld) (av : AV) (am : AM)
    (h1 : alookup av (g.id, matchId) = none) (h2 : alookup am matchId = none) :
    cleanupMatchVoice g matchId lobby w av am = (w, av, am) := by
  simp [cleanupMatchVoice, h1, h2, aremove_of_alookup_none h1]

/-- C8: running the terminal-state teardown a second time for the same
(guild, match) is a total no-op — the second invocation finds no
in-memory entry and no persisted entry, collects no channel ids, raises
nothing (the embedding is a total function because every exception in
`_cleanup_match_voice` is caught), and leaves the persisted
`active_matches` record without the match id. -/
theorem terminal_teardown_idempotent (g : Guild) (matchId : String) (lobby : Option Int)
    (w : GWorld) (av : AV) (am : AM) :
    cleanupMatchVoice g matchId lobby
        (cleanupMatchVoice g matchId lobby w av am).1
        (cleanupMatchVoice g matchId lobby w av am).2.1
        (cleanupMatchVoice g matchId lobby w av am).2.2 =
      cleanupMatchVoice g matchId lobby w av am ∧
    alookup (cleanupMatchVoice g matchId lobby w av am).2.2 matchId = none := by
  obtain ⟨hav, ham⟩ := cleanup_removes_bookkeeping g matchId lobby w av am
  refine ⟨?_, ham⟩
  rw [cleanup_noop_of_absent g matchId lobby _ _ _ hav ham]

/-! ### `_create_and_move` lemmas -/

theorem createAndMove_already_active {env : Nat → Option Int} {g : Guild} {m : MatchSnap}
    {teams : List (Int × List Int)} {lobby : Option Int} {w : GWorld} {av : AV} {am : AM}
    (h : (alookup av (g.id, m.id)).isSome) :
    createAndMove env g m teams lobby w av am = (w, av, am, .alreadyActive) := by
  simp [createAndMove, h]

theorem createAndMove_ok_eq {env : Nat → Option Int} {g : Guild} {m : MatchSnap}
    {teams : List (Int × List Int)} {lobby : Option Int} {w : GWorld} {av : AV} {am : AM}
    {w' : GWorld} {av' : AV} {am' : AM} {recs : List ChannelRec}
    (h : createAndMove env g m teams lobby w av am = (w', av', am', .ok recs)) :
    recs = (createPhase env m teams).1 ∧
    av' = ainsert av (g.id, m.id) (recs.map (fun r => r.cid)) ∧
    am' = ainsert am m.id (recs.map (fun r => r.cid)) := by
  by_cases hk : (alookup av (g.id, m.id)).isSome
  · rw [createAndMove_already_active hk] at h
    simp at h
  · rw [createAndMove] at h
    rw [if_neg hk] at h
    by_cases hp : (createPhase env m teams).2
    · simp only [hp, if_true, Prod.mk.injEq, CreateOutcome.ok.injEq] at h
      obtain ⟨hw, hav, ham, hrecs⟩ := h
      subst hrecs
      exact ⟨rfl, hav.symm, ham.symm⟩
    · simp [hp] at h

theorem createAndMove_rolledBack_eq {env : Nat → Option Int} {g : Guild} {m : MatchSnap}
    {teams : List (Int × List Int)} {lobby : Option Int} {w : GWorld} {av : AV} {am : AM}
    {w' : GWorld} {av' : AV} {am' : AM} {recs : List ChannelRec}
    (h : createAndMove env g m teams lobby w av am = (w', av', am', .rolledBack recs)) :
    recs = (createPhase env m teams).1 ∧
    av' = av ∧ am' = am ∧
    w' = recs.foldl (fun w r => deleteChannelId w r.cid)
      { w with channels := w.channels ++ recs.map (fun r => r.cid) } := by
  by_cases hk : (alookup av (g.id, m.id)).isSome
  · rw [createAndMove_already_active hk] at h
    simp at h
  · rw [createAndMove] at h
    rw [if_neg hk] at h
    by_cases hp : (createPhase env m teams).2
    · simp [hp] at h
    · simp only [hp, Bool.false_eq_true, if_false, Prod.mk.injEq,
        CreateOutcome.rolledBack.injEq] at h
      obtain ⟨hw, hav, ham, hrecs⟩ := h
      subst hrecs
      exact ⟨rfl, hav.symm, ham.symm, hw.symm⟩

theorem createTeamChannels_mem (env : Nat → Option Int) (sid : String) :
    ∀ (ts : List (Int × List Int)) (idx : Nat),
      ∀ r ∈ (createTeamChannels env sid idx ts).1, ∃ n, idx ≤ n ∧ env n = some r.cid := by
  intro ts
  induction ts with
  | nil =>
    intro idx r hr
    simp [createTeamChannels] at hr
  | cons p rest ih =>
    intro idx r hr
    rw [createTeamChannels] at hr
    by_cases hp : p.2.isEmpty
    · rw [if_pos hp] at hr
      exact ih idx r hr
    · rw [if_neg hp] at hr
      cases he : env idx with
      | none => rw [he] at hr; simp at hr
      | some cid =>
        rw [he] at hr
        rcases List.mem_cons.mp hr with hr | hr
        · exact ⟨idx, le_refl idx, by rw [hr]; exact he⟩
        · obtain ⟨n, hn, hen⟩ := ih (idx + 1) r hr
          exact ⟨n, by omega, hen⟩

theorem createTeamChannels_complete (env : Nat → Option Int) (sid : String)
    (henv : ∀ n, (env n).isSome) :
    ∀ (ts : List (Int × List Int)) (idx : Nat),
      (createTeamChannels env sid idx ts).2 = true ∧
      (createTeamChannels env sid idx ts).1.length =
        (ts.filter (fun p => ¬p.2.isEmpty)).length := by
  intro ts
  induction ts with
  | nil => intro idx; simp [createTeamChannels]
  | cons p rest ih =>
    intro idx
    rw [createTeamChannels]
    by_cases hp : p.2.isEmpty
    · rw [if_pos hp]
      refine ⟨(ih idx).1, ?_⟩
      rw [(ih idx).2, List.filter_cons]
      simp [hp]
    · rw [if_neg hp]
      cases he : env idx with
      | none =>
        have := henv idx
        rw [he] at this
        simp at this
      | some cid =>
        refine ⟨(ih (idx + 1)).1, ?_⟩
        rw [List.filter_cons]
        simp [hp, (ih (idx + 1)).2]

theorem createTeamChannels_granted (env : Nat → Option Int) (sid : String) :
    ∀ (ts : List (Int × List Int)) (idx : Nat),
      ∀ r ∈ (createTeamChannels env sid idx ts).1, ∃ p ∈ ts, r.granted = p.2 := by
  intro ts
  induction ts with
  | nil =>
    intro idx r hr
    simp [createTeamChannels] at hr
  | cons p rest ih =>
    intro idx r hr
    rw [createTeamChannels] at hr
    by_cases hp : p.2.isEmpty
    · rw [if_pos hp] at hr
      obtain ⟨q, hq, hg⟩ := ih idx r hr
      exact ⟨q, List.mem_cons_of_mem _ hq, hg⟩
    · rw [if_neg hp] at hr
      cases he : env idx with
      | none => rw [he] at hr; simp at hr
      | some cid =>
        rw [he] at hr
        rcases List.mem_cons.mp hr with hr | hr
        · exact ⟨p, List.mem_cons_self p rest, by rw [hr]⟩
        · obtain ⟨q, hq, hg⟩ := ih (idx + 1) r hr
          exact ⟨q, List.mem_cons_of_mem _ hq, hg⟩

theorem createPhase_mem {env : Nat → Option Int} {m : MatchSnap}
    {teams : List (Int × List Int)} {r : ChannelRec}
    (hr : r ∈ (createPhase env m teams).1) : ∃ n, env n = some r.cid := by
  rw [createPhase] at hr
  by_cases hmax : maxTeamSize teams ≤ 1
  · rw [if_pos hmax] at hr
    cases he : env 0 with
    | none => rw [he] at hr; simp at hr
    | some cid =>
      rw [he] at hr
      rcases List.mem_cons.mp hr with hr | hr
      · exact ⟨0, by rw [hr]; exact he⟩
      · simp at hr
  · rw [if_neg hmax] at hr
    obtain ⟨n, -, hen⟩ := createTeamChannels_mem env m.shortId teams 0 r hr
    exact ⟨n, hen⟩

theorem createPhase_complete (env : Nat → Option Int) (m : MatchSnap)
    (teams : List (Int × List Int)) (henv : ∀ n, (env n).isSome) :
    (createPhase env m teams).2 = true ∧
    (createPhase env m teams).1.length =
      (if maxTeamSize teams ≤ 1 then 1
       else (teams.filter (fun p => ¬p.2.isEmpty)).length) := by
  rw [createPhase]
  by_cases hmax : maxTeamSize teams ≤ 1
  · cases he : env 0 with
    | none =>
      have := henv 0
      rw [he] at this
      simp at this
    | some cid => simp [hmax, he]
  · simpa [hmax] using createTeamChannels_complete env m.shortId henv teams 0

theorem eraseFirst_append_not_mem (c : Int) :
    ∀ (base rest : List Int), c ∉ base →
      eraseFirst (base ++ c :: rest) c = base ++ rest := by
  intro base
  induction base with
  | nil =>
    intro rest _
    simp [eraseFirst]
  | cons x xs ih =>
    intro rest hc
    have hx : x ≠ c := fun h => hc (h ▸ List.mem_cons_self x xs)
    have hxs : c ∉ xs := fun h => hc (List.mem_cons_of_mem _ h)
    simp only [List.cons_append, eraseFirst, if_neg hx, List.append_eq]
    rw [ih rest hxs]

theorem fold_eraseFirst_rollback :
    ∀ (cids base : List Int), (∀ c ∈ cids, c ∉ base) →
      cids.foldl eraseFirst (base ++ cids) = base := by
  intro cids
  induction cids with
  | nil => intro base _; simp
  | cons c rest ih =>
    intro base hdis
    rw [List.foldl_cons,
      eraseFirst_append_not_mem c base rest (hdis c (List.mem_cons_self c rest))]
    exact ih base (fun c' h' => hdis c' (List.mem_cons_of_mem _ h'))

theorem fold_delete_channels :
    ∀ (recs : List ChannelRec) (w : GWorld),
      (recs.foldl (fun w r => deleteChannelId w r.cid) w).channels =
        (recs.map (fun r => r.cid)).foldl eraseFirst w.channels := by
  intro recs
  induction recs with
  | nil => intro w; rfl
  | cons r rest ih =>
    intro w
    rw [List.map_cons, List.foldl_cons, List.foldl_cons, ih]
    rfl

theorem createPhase_granted {env : Nat → Option Int} {m : MatchSnap}
    {teams : List (Int × List Int)} {r : ChannelRec} {d : Int}
    (hr : r ∈ (createPhase env m teams).1) (hd : d ∈ r.granted) :
    ∃ p ∈ teams, d ∈ p.2 := by
  rw [createPhase] at hr
  by_cases hmax : maxTeamSize teams ≤ 1
  · rw [if_pos hmax] at hr
    cases he : env 0 with
    | none => rw [he] at hr; simp at hr
    | some cid =>
      rw [he] at hr
      rcases List.mem_cons.mp hr with hr | hr
      · rw [hr] at hd
        simp only at hd
        obtain ⟨l, hl, hdl⟩ := List.mem_flatten.mp hd
        obtain ⟨p, hp, hpl⟩ := List.mem_map.mp hl
        exact ⟨p, hp, hpl ▸ hdl⟩
      · simp at hr
  · rw [if_neg hmax] at hr
    obtain ⟨p, hp, hg⟩ := createTeamChannels_granted env m.shortId teams 0 r hr
    exact ⟨p, hp, hg ▸ hd⟩

/-- C5: when channel creation for a RUNNING transition fails partway
through allocating the full set (the creation oracle raises at some
call, the allocated ids being fresh), `_create_and_move` deletes every
channel created during the attempt before returning — the guild's
channel set is exactly what it was, none of the attempt's channels
survives — and neither the in-memory `_active_voice` map nor the
persisted `active_matches` record gains an entry for the match. -/
theorem failed_allocation_rolls_back (env : Nat → Option Int) (g : Guild)
    (m : MatchSnap) (teams : List (Int × List Int)) (lobby : Option Int)
    (w : GWorld) (av : AV) (am : AM) (w' : GWorld) (av' : AV) (am' : AM)
    (recs : List ChannelRec)
    (hfresh : ∀ n c, env n = some c → c ∉ w.channels)
    (h : createAndMove env g m teams lobby w av am = (w', av', am', .rolledBack recs)) :
    w'.channels = w.channels ∧ (∀ r ∈ recs, r.cid ∉ w'.channels) ∧
    av' = av ∧ am' = am := by
  obtain ⟨hrecs, hav, ham, hw⟩ := createAndMove_rolledBack_eq h
  have hmem : ∀ c ∈ recs.map (fun r => r.cid), c ∉ w.channels := by
    intro c hc
    obtain ⟨r, hr, hcr⟩ := List.mem_map.mp hc
    obtain ⟨n, hen⟩ := createPhase_mem (hrecs ▸ hr)
    exact hfresh n c (hcr ▸ hen)
  have hch : w'.channels = w.channels := by
    rw [hw, fold_delete_channels]
    exact fold_eraseFirst_rollback (recs.map (fun r => r.cid)) w.channels hmem
  refine ⟨hch, ?_, hav, ham⟩
  intro r hr
  rw [hch]
  exact hmem r.cid (List.mem_map_of_mem _ hr)

/-- Witness for C5: two teams of sizes 2 and 1, the first creation call
returns channel 50 and the second raises; the world is restored and
nothing is recorded. -/
theorem failed_allocation_rolls_back_witness :
    (∀ (n : Nat) (c : Int), (fun k : Nat => if k = 0 then some (50 : Int) else none) n = some c →
        c ∉ (GWorld.mk [10] []).channels) ∧
    createAndMove (fun k : Nat => if k = 0 then some (50 : Int) else none)
        (Guild.mk 1 [1, 2, 3]) (MatchSnap.mk "M" "1" []) [(0, [1, 2]), (1, [3])] none
        (GWorld.mk [10] []) [] [] =
      (GWorld.mk [10] [], [], [],
       CreateOutcome.rolledBack [ChannelRec.mk 50 "match-1-team1" [1, 2]]) ∧
    ((GWorld.mk [10] []).channels = (GWorld.mk [10] []).channels ∧
     (∀ r ∈ [ChannelRec.mk 50 "match-1-team1" [1, 2]],
        r.cid ∉ (GWorld.mk [10] []).channels) ∧
     ([] : AV) = [] ∧ ([] : AM) = []) := by
  have hfresh : ∀ (n : Nat) (c : Int),
      (fun k : Nat => if k = 0 then some (50 : Int) else none) n = some c →
      c ∉ (GWorld.mk [10] []).channels := by
    intro n c h
    cases n with
    | zero =>
      simp at h
      subst h
      decide
    | succ k => simp at h
  exact ⟨hfresh, by decide,
    failed_allocation_rolls_back (fun k : Nat => if k = 0 then some (50 : Int) else none)
      (Guild.mk 1 [1, 2, 3]) (MatchSnap.mk "M" "1" []) [(0, [1, 2]), (1, [3])] none
      (GWorld.mk [10] []) [] [] (GWorld.mk [10] []) [] []
      [ChannelRec.mk 50 "match-1-team1" [1, 2]] hfresh (by decide)⟩

/-! ### Lineup-resolution lemmas -/

theorem resolveMember_spec {storage : FileState} {g : Guild} {mem : LineupMember}
    {d : Int} (h : resolveMember storage g mem = some d) :
    (∃ uid, Storage.get_discord_id storage uid = some d) ∧ d ∈ g.members := by
  obtain ⟨u⟩ := mem
  rcases u with - | uid
  · simp [resolveMember] at h
  · by_cases hu : uid = ""
    · simp [resolveMember, hu] at h
    · rcases hg : Storage.get_discord_id storage uid with - | did
      · simp [resolveMember, hu, hg] at h
      · by_cases hd0 : did = 0
        · simp [resolveMember, hu, hg, hd0] at h
        · simp only [resolveMember, hu, hg, hd0, if_false] at h
          rw [Guild.get_member] at h
          by_cases hmem : did ∈ g.members
          · rw [if_pos hmem] at h
            obtain rfl : did = d := by cases h; rfl
            exact ⟨⟨uid, hg⟩, hmem⟩
          · rw [if_neg hmem] at h
            cases h

theorem foldl_ainsert_inv {γ : Type} (f : γ → Int) (v : γ → List Int)
    (Q : Int × List Int → Prop) :
    ∀ (xs : List γ) (acc : List (Int × List Int)),
      (∀ q ∈ acc, Q q) → (∀ x ∈ xs, Q (f x, v x)) →
      ∀ q ∈ xs.foldl (fun acc x => ainsert acc (f x) (v x)) acc, Q q := by
  intro xs
  induction xs with
  | nil =>
    intro acc hacc _ q hq
    exact hacc q hq
  | cons x rest ih =>
    intro acc hacc hxs q hq
    rw [List.foldl_cons] at hq
    refine ih (ainsert acc (f x) (v x)) ?_
      (fun y hy => hxs y (List.mem_cons_of_mem _ hy)) q hq
    intro q' hq'
    rcases ainsert_mem hq' with h | h
    · exact hacc q' h
    · rw [h]
      exact hxs x (List.mem_cons_self x rest)

theorem resolveTeams_spec (storage : FileState) (g : Guild) (m : MatchSnap) :
    ∀ q ∈ resolveTeams storage g m,
      ∃ lu ∈ m.lineups, q.2 = lu.members.filterMap (resolveMember storage g) := by
  intro q hq
  rw [resolveTeams] at hq
  exact foldl_ainsert_inv (fun lu => lu.number)
    (fun lu => lu.members.filterMap (resolveMember storage g))
    (fun q => ∃ lu ∈ m.lineups, q.2 = lu.members.filterMap (resolveMember storage g))
    m.lineups [] (by simp) (fun lu hlu => ⟨lu, hlu, rfl⟩) q hq

theorem createAndMove_run_ok {env : Nat → Option Int} {g : Guild} {m : MatchSnap}
    {teams : List (Int × List Int)} {lobby : Option Int} {w : GWorld} {av : AV} {am : AM}
    (hk : ¬(alookup av (g.id, m.id)).isSome = true)
    (hc : (createPhase env m teams).2 = true) :
    createAndMove env g m teams lobby w av am =
      (doMoves lobby teams (createPhase env m teams).1
         { w with channels :=
             w.channels ++ (createPhase env m teams).1.map (fun r => r.cid) },
       ainsert av (g.id, m.id) ((createPhase env m teams).1.map (fun r => r.cid)),
       ainsert am m.id ((createPhase env m teams).1.map (fun r => r.cid)),
       .ok (createPhase env m teams).1) := by
  rw [createAndMove, if_neg hk]
  simp only [hc, if_true]

/-- C3: for a match entering RUNNING with no channels yet recorded and a
creation oracle that does not raise, `_create_and_move` creates exactly
one channel when the maximal resolved team size is at most 1 and
otherwise exactly one channel per non-empty resolved team; and every
member granted access to a created channel is resolvable to a Discord id
through the Link Store and is a current member of the guild. -/
theorem running_entry_channel_policy (env : Nat → Option Int) (storage : FileState)
    (g : Guild) (m : MatchSnap) (lobby : Option Int) (w : GWorld) (av : AV) (am : AM)
    (hkey : alookup av (g.id, m.id) = none)
    (henv : ∀ n, (env n).isSome) :
    ∃ w' av' am' recs,
      createAndMove env g m (resolveTeams storage g m) lobby w av am =
        (w', av', am', .ok recs) ∧
      recs.length = (if maxTeamSize (resolveTeams storage g m) ≤ 1 then 1
        else ((resolveTeams storage g m).filter (fun p => ¬p.2.isEmpty)).length) ∧
      (∀ r ∈ recs, ∀ d ∈ r.granted,
        (∃ uid, Storage.get_discord_id storage uid = some d) ∧ d ∈ g.members) := by
  obtain ⟨hc, hlen⟩ := createPhase_complete env m (resolveTeams storage g m) henv
  have hks : ¬(alookup av (g.id, m.id)).isSome = true := by simp [hkey]
  refine ⟨_, _, _, (createPhase env m (resolveTeams storage g m)).1,
    createAndMove_run_ok hks hc, hlen, ?_⟩
  intro r hr d hd
  obtain ⟨p, hp, hdp⟩ := createPhase_granted hr hd
  obtain ⟨lu, hlu, hql⟩ := resolveTeams_spec storage g m p hp
  rw [hql] at hdp
  obtain ⟨mem, hmem, hres⟩ := List.mem_filterMap.mp hdp
  exact resolveMember_spec hres

/-- Witness for C3: one lineup whose single member is linked (`u1 → 5`)
and in the guild; a 1v1 match, so exactly one channel is created and
member 5 is the only grant. -/
theorem running_entry_channel_policy_witness :
    alookup ([] : AV) ((1 : Int), "M") = none ∧
    (∀ n : Nat, ((fun _ : Nat => some (100 : Int)) n).isSome) ∧
    (∃ w' av' am' recs,
      createAndMove (fun _ : Nat => some (100 : Int)) (Guild.mk 1 [5])
          (MatchSnap.mk "M" "7" [Lineup.mk 0 [LineupMember.mk (some "u1")]])
          (resolveTeams (FileState.ok [("u1", "5")]) (Guild.mk 1 [5])
            (MatchSnap.mk "M" "7" [Lineup.mk 0 [LineupMember.mk (some "u1")]]))
          none (GWorld.mk [] []) [] [] =
        (w', av', am', .ok recs) ∧
      recs.length = (if maxTeamSize (resolveTeams (FileState.ok [("u1", "5")])
            (Guild.mk 1 [5])
            (MatchSnap.mk "M" "7" [Lineup.mk 0 [LineupMember.mk (some "u1")]])) ≤ 1
          then 1
          else ((resolveTeams (FileState.ok [("u1", "5")]) (Guild.mk 1 [5])
            (MatchSnap.mk "M" "7" [Lineup.mk 0 [LineupMember.mk (some "u1")]])).filter
              (fun p => ¬p.2.isEmpty)).length) ∧
      (∀ r ∈ recs, ∀ d ∈ r.granted,
        (∃ uid, Storage.get_discord_id (FileState.ok [("u1", "5")]) uid = some d) ∧
        d ∈ (Guild.mk 1 [5]).members)) :=
  ⟨rfl, fun _ => rfl,
   running_entry_channel_policy (fun _ : Nat => some (100 : Int)) (FileState.ok [("u1", "5")])
     (Guild.mk 1 [5]) (MatchSnap.mk "M" "7" [Lineup.mk 0 [LineupMember.mk (some "u1")]])
     none (GWorld.mk [] []) [] [] rfl (fun _ => rfl)⟩

/-- C7: the (guildId, matchId) key discipline of the in-memory
`_active_voice` map: (i) a RUNNING entry whose key is already present
creates nothing and changes no state; (ii) successful creation inserts
the key — and the persisted record's entry — with exactly the created
channel ids; (iii) a failed creation leaves both maps without the key;
(iv) terminal-state teardown removes the key and the persisted entry,
and those bookkeeping outputs are independent of the guild world, i.e.
they happen even when the individual channel deletions or member moves
fail or find nothing to delete. -/
theorem active_voice_key_invariant (env : Nat → Option Int) (g : Guild) (m : MatchSnap)
    (teams : List (Int × List Int)) (lobby : Option Int) (w : GWorld) (av : AV) (am : AM) :
    ((alookup av (g.id, m.id)).isSome →
       createAndMove env g m teams lobby w av am = (w, av, am, .alreadyActive)) ∧
    (∀ w' av' am' recs,
       createAndMove env g m teams lobby w av am = (w', av', am', .ok recs) →
       alookup av' (g.id, m.id) = some (recs.map (fun r => r.cid)) ∧
       alookup am' m.id = some (recs.map (fun r => r.cid))) ∧
    (∀ w' av' am' recs,
       createAndMove env g m teams lobby w av am = (w', av', am', .rolledBack recs) →
       av' = av ∧ am' = am) ∧
    (∀ (mid : String) (w₂ : GWorld),
       alookup (cleanupMatchVoice g mid lobby w av am).2.1 (g.id, mid) = none ∧
       alookup (cleanupMatchVoice g mid lobby w av am).2.2 mid = none ∧
       (cleanupMatchVoice g mid lobby w av am).2 =
         (cleanupMatchVoice g mid lobby w₂ av am).2) := by
  refine ⟨fun h => createAndMove_already_active h, ?_, ?_, ?_⟩
  · intro w' av' am' recs h
    obtain ⟨-, hav, ham⟩ := createAndMove_ok_eq h
    constructor
    · rw [hav]
      exact alookup_ainsert_self av (g.id, m.id) _
    · rw [ham]
      exact alookup_ainsert_self am m.id _
  · intro w' av' am' recs h
    obtain ⟨-, hav, ham, -⟩ := createAndMove_rolledBack_eq h
    exact ⟨hav, ham⟩
  · intro mid w₂
    obtain ⟨h1, h2⟩ := cleanup_removes_bookkeeping g mid lobby w av am
    refine ⟨h1, h2, ?_⟩
    simp [cleanupMatchVoice]

/-- Witness for C7: with the key (1, M) already present in
`_active_voice`, a RUNNING entry is a complete no-op. -/
theorem active_voice_key_invariant_witness :
    ((alookup ([(((1 : Int), "M"), [7])] : AV) ((1 : Int), "M")).isSome) ∧
    createAndMove (fun _ : Nat => (none : Option Int)) (Guild.mk 1 [])
        (MatchSnap.mk "M" "1" []) [] none (GWorld.mk [] [])
        [(((1 : Int), "M"), [7])] [] =
      (GWorld.mk [] [], [(((1 : Int), "M"), [7])], [], .alreadyActive) :=
  ⟨by decide,
   (active_voice_key_invariant (fun _ : Nat => (none : Option Int)) (Guild.mk 1 [])
     (MatchSnap.mk "M" "1" []) [] none (GWorld.mk [] [])
     [(((1 : Int), "M"), [7])] []).1 (by decide)⟩

/-- C1: the claimed startup recovery is absent from the code — this is a
slip, not a different design: the record is persisted expressly "for
recovery" (comments at `_create_and_move` line 476 and the
`active_matches` default), but `start` (lines 125-130) only opens the
session and spawns the poll task, reading nothing.  At the restart state
`restartProc` (persisted match `M` with channel 100, an occupant inside)
`start` leaves the record and the channel untouched, while the claimed
teardown would delete them; only `stop` performs the teardown, shown for
contrast: it empties the record, deletes channel 100 and returns the
occupant to the lobby — unconditionally, with no reference to any remote
state. -/
theorem startup_performs_no_recovery :
    (MonitorStart restartProc).guilds = restartProc.guilds ∧
    (MonitorStart restartProc).guilds.map GuildState.activeMatches = [[("M", [100])]] ∧
    (MonitorStart restartProc).guilds.map (fun gs => gs.world.channels) = [[10, 100]] ∧
    (MonitorStop restartProc).guilds.map GuildState.activeMatches = [[]] ∧
    (MonitorStop restartProc).guilds.map (fun gs => gs.world.channels) = [[10]] ∧
    (MonitorStop restartProc).guilds.map (fun gs => gs.world.voice) = [[(5, 10)]] := by
  exact ⟨rfl, rfl, rfl, rfl, rfl, rfl⟩

/-- C2: `_graphql` is neither an instance attribute nor a method of
`TournamentMonitor` (only `_graphql_raw` exists), so with a configured
API URL both `_fetch_tournament_matches` and
`get_tournament_participants` raise `AttributeError` at the
`self._graphql(...)` call, before issuing any network request (the
request counter stays 0). -/
theorem missing_graphql_method (apiUrl tournamentId : String) (hcfg : apiUrl ≠ "") :
    monitorGetAttr "_graphql" = .error "AttributeError: _graphql" ∧
    fetchTournamentMatches apiUrl tournamentId =
      (.error "AttributeError: _graphql", 0) ∧
    getTournamentParticipants apiUrl tournamentId =
      (.error "AttributeError: _graphql", 0) := by
  refine ⟨rfl, rfl, ?_⟩
  rw [getTournamentParticipants, if_neg hcfg]
  rfl

/-- Witness for C2 at the default API URL. -/
theorem missing_graphql_method_witness :
    ("https://publicapi.challengermode.com/graphql" ≠ "") ∧
    (monitorGetAttr "_graphql" = .error "AttributeError: _graphql" ∧
     fetchTournamentMatches "https://publicapi.challengermode.com/graphql" "t1" =
       (.error "AttributeError: _graphql", 0) ∧
     getTournamentParticipants "https://publicapi.challengermode.com/graphql" "t1" =
       (.error "AttributeError: _graphql", 0)) :=
  ⟨by decide, missing_graphql_method _ _ (by decide)⟩

/-- C10: every Link Store read operation against a corrupted or missing
backing file returns the result computed from an empty links mapping —
`get_discord_id` returns `none`, `all_links` returns the empty mapping —
and never raises: `_read` catches every exception of the raw
open-and-parse step (`readRaw`), so both read operations are total. -/
theorem storage_reads_degrade_to_empty (f : FileState)
    (h : f = FileState.missing ∨ f = FileState.corrupt) (cm : String) :
    Storage.get_discord_id f cm = none ∧
    Storage.all_links f = [] ∧
    Storage.get_discord_id (FileState.ok []) cm = none ∧
    Storage.all_links (FileState.ok []) = [] := by
  rcases h with h | h <;> subst h <;>
    simp [Storage.get_discord_id, Storage.all_links, Storage._read, Storage.readRaw, alookup]

/-- Witness for C10 at a concrete corrupted store and key. -/
theorem storage_reads_degrade_to_empty_witness :
    (FileState.corrupt = FileState.missing ∨ FileState.corrupt = FileState.corrupt) ∧
    (Storage.get_discord_id FileState.corrupt "u1" = none ∧
     Storage.all_links FileState.corrupt = [] ∧
     Storage.get_discord_id (FileState.ok []) "u1" = none ∧
     Storage.all_links (FileState.ok []) = []) :=
  ⟨Or.inr rfl, storage_reads_degrade_to_empty FileState.corrupt (Or.inr rfl) "u1"⟩

/-! ### Token manager and API client theorems -/

theorem ensure_exchanges_once {ex : Nat → ExchangeResult} {cnt : Nat} {now : Int}
    {ts : TokenState} {tok : String} {ts' : TokenState} {cnt' : Nat}
    (hcache : ts.cachedToken = "")
    (h : ensureAccessToken ex cnt now ts = (some tok, ts', cnt')) : cnt' = cnt + 1 := by
  rw [ensureAccessToken, if_neg (by simp [hcache])] at h
  by_cases hrk : ts.refreshKey = ""
  · simp [hrk] at h
  · rw [if_neg hrk] at h
    by_cases hu : ts.tokenUrl = ""
    · simp [hu] at h
    · rw [if_neg hu] at h
      cases hex : ex cnt with
      | fail =>
        rw [hex] at h
        simp at h
      | ok value expAt =>
        rw [hex] at h
        have := congrArg (fun t => t.2.2) h
        simpa using this.symm

/-- C9: `_ensure_access_token` returns the cached token with no exchange
call exactly when a cached token exists and its expiry minus the current
time exceeds the 60-second margin (for non-negative clock values the
code's extra truthiness test on the stored expiry is implied); otherwise
— with a refresh key and token endpoint configured — exactly one
exchange call is performed; and a second call still within the margin
returns the identical cached value with no further exchange. -/
theorem token_cache_reuse (ex : Nat → ExchangeResult) (cnt : Nat) (now : Int)
    (ts : TokenState) (hnow : 0 ≤ now) (hrk : ts.refreshKey ≠ "")
    (hurl : ts.tokenUrl ≠ "") :
    ((ensureAccessToken ex cnt now ts).2.2 = cnt ↔
      (ts.cachedToken ≠ "" ∧ ts.expiresAt - now > 60)) ∧
    ((ts.cachedToken ≠ "" ∧ ts.expiresAt - now > 60) →
      ensureAccessToken ex cnt now ts = (some ts.cachedToken, ts, cnt)) ∧
    (¬(ts.cachedToken ≠ "" ∧ ts.expiresAt - now > 60) →
      (ensureAccessToken ex cnt now ts).2.2 = cnt + 1) ∧
    (∀ now₂ : Int, (ts.cachedToken ≠ "" ∧ ts.expiresAt - now > 60) →
      ts.expiresAt - now₂ > 60 →
      ensureAccessToken ex (ensureAccessToken ex cnt now ts).2.2 now₂
        (ensureAccessToken ex cnt now ts).2.1 = (some ts.cachedToken, ts, cnt)) := by
  have hpos : ∀ _ : ts.cachedToken ≠ "" ∧ ts.expiresAt - now > 60,
      ensureAccessToken ex cnt now ts = (some ts.cachedToken, ts, cnt) := by
    intro h
    rw [ensureAccessToken, if_pos ⟨h.1, by omega, h.2⟩]
  have hneg : ∀ _ : ¬(ts.cachedToken ≠ "" ∧ ts.expiresAt - now > 60),
      (ensureAccessToken ex cnt now ts).2.2 = cnt + 1 := by
    intro h
    have hcond : ¬(ts.cachedToken ≠ "" ∧ ts.expiresAt ≠ 0 ∧ ts.expiresAt - now > 60) := by
      intro hc
      exact h ⟨hc.1, hc.2.2⟩
    rw [ensureAccessToken, if_neg hcond, if_neg hrk, if_neg hurl]
    cases ex cnt <;> rfl
  refine ⟨?_, hpos, hneg, ?_⟩
  · constructor
    · intro h
      by_cases hc : ts.cachedToken ≠ "" ∧ ts.expiresAt - now > 60
      · exact hc
      · rw [hneg hc] at h
        omega
    · intro hc
      rw [hpos hc]
  · intro now₂ h h2
    rw [hpos h]
    show ensureAccessToken ex cnt now₂ ts = (some ts.cachedToken, ts, cnt)
    rw [ensureAccessToken, if_pos ⟨h.1, by omega, h2⟩]

/-- Witness for C9: a valid cached token at time 0 with configured
refresh key and endpoint. -/
theorem token_cache_reuse_witness :
    ((0 : Int) ≤ 0) ∧ demoTokenState.refreshKey ≠ "" ∧ demoTokenState.tokenUrl ≠ "" ∧
    (((ensureAccessToken demoExchange 0 0 demoTokenState).2.2 = 0 ↔
       (demoTokenState.cachedToken ≠ "" ∧ demoTokenState.expiresAt - 0 > 60)) ∧
     ((demoTokenState.cachedToken ≠ "" ∧ demoTokenState.expiresAt - 0 > 60) →
       ensureAccessToken demoExchange 0 0 demoTokenState =
         (some demoTokenState.cachedToken, demoTokenState, 0)) ∧
     (¬(demoTokenState.cachedToken ≠ "" ∧ demoTokenState.expiresAt - 0 > 60) →
       (ensureAccessToken demoExchange 0 0 demoTokenState).2.2 = 0 + 1) ∧
     (∀ now₂ : Int, (demoTokenState.cachedToken ≠ "" ∧ demoTokenState.expiresAt - 0 > 60) →
       demoTokenState.expiresAt - now₂ > 60 →
       ensureAccessToken demoExchange
           (ensureAccessToken demoExchange 0 0 demoTokenState).2.2 now₂
           (ensureAccessToken demoExchange 0 0 demoTokenState).2.1 =
         (some demoTokenState.cachedToken, demoTokenState, 0))) :=
  ⟨le_refl 0, by decide, by decide,
   token_cache_reuse demoExchange 0 0 demoTokenState (le_refl 0) (by decide) (by decide)⟩

/-- C4: the auth-retry discipline of `_graphql_raw`: never more than two
POSTs to the API per call; when the primary response is anything other
than HTTP 200 with an auth-classified GraphQL error there is no retry at
all; and when the primary response is HTTP 200 with an auth-classified
error and the forced re-exchange yields a token, exactly one retry is
performed with that fresh token — the exchange counter shows exactly
one re-exchange beyond the initial token acquisition, and no further
retry happens whatever the retried call returns. -/
theorem auth_retry_bounded (ex : Nat → ExchangeResult) (http : Nat → HttpResult)
    (now : Int) (ts : TokenState) :
    (graphqlRaw ex http now ts).requests ≤ 2 ∧
    (∀ st b, http 0 = .resp st b → ¬(st = 200 ∧ isAuthError b = true) →
       (graphqlRaw ex http now ts).requests ≤ 1) ∧
    (∀ b t, http 0 = .resp 200 b → isAuthError b = true →
       (graphqlRaw ex http now ts).retryToken = some t →
       (graphqlRaw ex http now ts).requests = 2 ∧
       (graphqlRaw ex http now ts).exchanges =
         (ensureAccessToken ex 0 now ts).2.2 + 1) := by
  rcases h0 : ensureAccessToken ex 0 now ts with ⟨tok0, ts1, ec1⟩
  cases tok0 with
  | none =>
    have hg : graphqlRaw ex http now ts = ⟨none, none, 0, ec1, ts1, none⟩ := by
      simp only [graphqlRaw, h0]
    refine ⟨?_, ?_, ?_⟩ <;> rw [hg]
    · simp
    · intro st b _ _
      simp
    · intro b t _ _ h3
      simp at h3
  | some a =>
    cases h1 : http 0 with
    | fail =>
      have hg : graphqlRaw ex http now ts = ⟨none, none, 1, ec1, ts1, none⟩ := by
        simp only [graphqlRaw, h0, h1]
      refine ⟨?_, ?_, ?_⟩ <;> rw [hg]
      · simp
      · intro st b _ _
        simp
      · intro b t hh _ _
        exact HttpResult.noConfusion hh
    | resp st b =>
      cases b with
      | nonJson =>
        have hg : graphqlRaw ex http now ts = ⟨none, some st, 1, ec1, ts1, none⟩ := by
          simp only [graphqlRaw, h0, h1]
        refine ⟨?_, ?_, ?_⟩ <;> rw [hg]
        · simp
        · intro st' b' _ _
          simp
        · intro b' t hh hauth _
          injection hh with hst hb
          rw [← hb] at hauth
          simp [isAuthError] at hauth
      | jsonOther =>
        by_cases hcond : st = 200 ∧ isAuthError Body.jsonOther = true
        · simp [isAuthError] at hcond
        · have hg : graphqlRaw ex http now ts =
              ⟨some Body.jsonOther, some st, 1, ec1, ts1, none⟩ := by
            simp only [graphqlRaw, h0, h1, if_neg hcond]
          refine ⟨?_, ?_, ?_⟩ <;> rw [hg]
          · simp
          · intro st' b' _ _
            simp
          · intro b' t hh hauth _
            injection hh with hst hb
            rw [← hb] at hauth
            simp [isAuthError] at hauth
      | jsonObj errs =>
        by_cases hcond : st = 200 ∧ isAuthError (Body.jsonObj errs) = true
        · rcases h2 : ensureAccessToken ex ec1 now
              { ts1 with cachedToken := "", expiresAt := 0 } with ⟨tok2, ts3, ec2⟩
          cases tok2 with
          | none =>
            have hg : graphqlRaw ex http now ts =
                ⟨some (Body.jsonObj errs), some st, 1, ec2, ts3, none⟩ := by
              simp only [graphqlRaw, h0, h1, if_pos hcond, h2]
            refine ⟨?_, ?_, ?_⟩ <;> rw [hg]
            · simp
            · intro st' b' _ _
              simp
            · intro b' t _ _ h3
              simp at h3
          | some newTok =>
            have hec : ec2 = ec1 + 1 := ensure_exchanges_once rfl h2
            have hg : (graphqlRaw ex http now ts).requests = 2 ∧
                (graphqlRaw ex http now ts).exchanges = ec2 ∧
                (graphqlRaw ex http now ts).retryToken = some newTok := by
              simp only [graphqlRaw, h0, h1, if_pos hcond, h2]
              cases http 1 with
              | fail => exact ⟨rfl, rfl, rfl⟩
              | resp st2 b2 => cases b2 <;> exact ⟨rfl, rfl, rfl⟩
            refine ⟨?_, ?_, ?_⟩
            · rw [hg.1]
            · intro st' b' hh habs
              injection hh with hst hb
              exact absurd ⟨hst ▸ hcond.1, hb ▸ hcond.2⟩ habs
            · intro b' t _ _ _
              refine ⟨hg.1, ?_⟩
              rw [hg.2.1]
              exact hec
        · have hg : graphqlRaw ex http now ts =
              ⟨some (Body.jsonObj errs), some st, 1, ec1, ts1, none⟩ := by
            simp only [graphqlRaw, h0, h1, if_neg hcond]
          refine ⟨?_, ?_, ?_⟩ <;> rw [hg]
          · simp
          · intro st' b' _ _
            simp
          · intro b' t hh hauth _
            injection hh with hst hb
            rw [← hb] at hauth
            exact absurd ⟨hst, hauth⟩ hcond

/-- Witness for C4: primary response HTTP 200 with an
`AUTH_NOT_AUTHENTICATED` error, successful re-exchange, successful
retry: exactly two POSTs and exactly one extra exchange. -/
theorem auth_retry_bounded_witness :
    demoHttp 0 = HttpResult.resp 200 demoAuthBody ∧
    isAuthError demoAuthBody = true ∧
    (graphqlRaw demoExchange demoHttp 0 demoTokenState).retryToken = some "tok2" ∧
    ((graphqlRaw demoExchange demoHttp 0 demoTokenState).requests = 2 ∧
     (graphqlRaw demoExchange demoHttp 0 demoTokenState).exchanges =
       (ensureAccessToken demoExchange 0 0 demoTokenState).2.2 + 1) :=
  ⟨rfl, by decide, by decide,
   (auth_retry_bounded demoExchange demoHttp 0 demoTokenState).2.2
     demoAuthBody "tok2" rfl (by decide) (by decide)⟩

/-! ### Poll-sweep isolation theorems -/

/-- C6 counterexample: with `sweepFetch` (tournament `t1`'s snapshot
fetch raises, `t2`'s succeeds), `_process_guild` aborts at `t1` and
never reaches `t2` — the whole guild body raises and is only caught at
guild scope — although processing `t2` alone would have succeeded.  So a
failure in one tournament does abort processing of that guild's other
tournaments, contradicting the claim. -/
theorem tournament_failure_aborts_guild :
    processGuild sweepFetch (fun _ => .ok ()) (fun _ _ _ => .ok ()) [] ["t1", "t2"] =
      .error "boom" ∧
    processGuild sweepFetch (fun _ => .ok ()) (fun _ _ _ => .ok ()) [] ["t2"] =
      .ok ["t2"] :=
  ⟨rfl, rfl⟩

/-- C6 amended: failure isolation exists at guild scope and loop scope
but not at tournament scope: a guild whose processing raises does not
prevent the other guilds from being attempted in the same sweep; every
scheduled sweep of the poll loop completes regardless of failures; but
inside one guild, a raising tournament step (here: its snapshot fetch)
aborts the processing of that guild's remaining tournaments for the
sweep. -/
theorem sweep_isolation_scopes (guilds : List Int)
    (perGuild : Int → Except String (List String))
    (sweeps : List (Except String Unit))
    (fetch : String → Except String (Option TData))
    (handleT : String → Except String Unit)
    (handleM : String → String → String → Except String Unit)
    (cache : List (String × List (String × String)))
    (t : String) (rest : List String) (e : String)
    (hf : fetch t = .error e) :
    (tickAllGuilds true guilds perGuild).map Prod.fst = guilds ∧
    pollLoop sweeps = sweeps.map (fun _ => true) ∧
    processGuild fetch handleT handleM cache (t :: rest) = .error e := by
  refine ⟨?_, ?_, ?_⟩
  · induction guilds with
    | nil => rfl
    | cons g gs ih =>
      simp only [tickAllGuilds, if_true] at ih ⊢
      cases hpg : perGuild g <;> simp_all [hpg]
  · induction sweeps with
    | nil => rfl
    | cons s ss ih =>
      simp only [pollLoop] at ih ⊢
      cases s <;> simp_all
  · simp only [processGuild, hf]
    rfl

/-- Witness for C6 (amended): two guilds with the first raising, two
scheduled sweeps with the second raising, and `sweepFetch` raising on
tournament `t1`. -/
theorem sweep_isolation_scopes_witness :
    sweepFetch "t1" = .error "boom" ∧
    ((tickAllGuilds true [1, 2]
        (fun g : Int => if g = 1 then .error "g1" else .ok [])).map Prod.fst = [1, 2] ∧
     pollLoop [.ok (), .error "x"] =
       ([.ok (), .error "x"] : List (Except String Unit)).map (fun _ => true) ∧
     processGuild sweepFetch (fun _ => .ok ()) (fun _ _ _ => .ok ()) [] ["t1", "t3"] =
       .error "boom") :=
  ⟨rfl,
   sweep_isolation_scopes [1, 2] (fun g : Int => if g = 1 then .error "g1" else .ok [])
     [.ok (), .error "x"] sweepFetch (fun _ => .ok ()) (fun _ _ _ => .ok ()) []
     "t1" ["t3"] "boom" rfl⟩

end CMLink
